import Mathlib

/-!
Verification of the Millikan oil-drop simulator (`main.js`).

The physics core of the repository is embedded shallowly over `ℝ`:
JavaScript numbers are modelled as real numbers (every real is finite, so the
source's `Number.isFinite` guards are modelled on the finite branch, noted at
each use), and the ambient `Math.random()`-driven Gaussian sample is injected
as an explicit parameter.  Each definition mirrors one function of
`src/main.js`; line numbers are cited in the doc comments.
-/

namespace OilDrop

/-- Physics constants, `src/main.js` lines 12-19. -/
def ELECTRON_CHARGE : ℝ := 1.602e-19

def OIL_DENSITY : ℝ := 860

def AIR_DENSITY : ℝ := 1.2

def BOLTZMANN : ℝ := 1.380649e-23

def AIR_MEAN_FREE_PATH : ℝ := 65e-9

def CUNNINGHAM_A : ℝ := 1.257

def CUNNINGHAM_B : ℝ := 0.4

def CUNNINGHAM_C : ℝ := 1.1

/-- Integrator constants, `src/main.js` lines 22-25. -/
noncomputable def MAX_FRAME_DT : ℝ := 1 / 20

noncomputable def SUBSTEP_DT : ℝ := 1 / 1800

def BASE_MAX_SPEED : ℝ := 0.12

def BOUNCE_DAMPING : ℝ := 0.3

/-- The global `state` object, `src/main.js` lines 32-46 (fields consumed by
the physics core; rendering-only fields `showTrail`/`showGrid` are omitted as
the spec excludes them). -/
structure SimState where
  running : Bool
  voltageKV : ℝ
  plateGapMeters : ℝ
  radiusMicrons : ℝ
  viscosity : ℝ
  temperatureK : ℝ
  noiseBoost : ℝ
  fieldEnabled : Bool
  gravity : ℝ
  pulseTimer : ℝ
  fieldPolarity : ℝ

/-- The `drop` object, `src/main.js` lines 48-57. -/
@[ext] structure Drop where
  y : ℝ
  velocity : ℝ
  chargeCoulombs : ℝ
  radiusMeters : ℝ
  mass : ℝ
  slipFactor : ℝ
  dragCoeff : ℝ

/-- `clamp`, `src/main.js` line 64: `Math.min(Math.max(v, a), b)`. -/
noncomputable def clamp (v a b : ℝ) : ℝ := min (max v a) b

/-- `computeSlipCorrection`, `src/main.js` lines 70-74. -/
noncomputable def computeSlipCorrection (radiusMeters : ℝ) : ℝ :=
  let r := max radiusMeters 5e-9
  let kn := AIR_MEAN_FREE_PATH / r
  1 + kn * (CUNNINGHAM_A + CUNNINGHAM_B * Real.exp (-CUNNINGHAM_C / kn))

/-- `recomputeDropCoefficients`, `src/main.js` lines 76-83. -/
noncomputable def recomputeDropCoefficients (s : SimState) (d : Drop) : Drop :=
  let radiusMeters := s.radiusMicrons * 1e-6
  let volume := (4 / 3) * Real.pi * radiusMeters ^ 3
  let effDensity := max (OIL_DENSITY - AIR_DENSITY) 1
  let mass := max (volume * effDensity) 1e-20
  let slipFactor := computeSlipCorrection radiusMeters
  let dragCoeff := 6 * Real.pi * s.viscosity * radiusMeters / slipFactor
  { d with radiusMeters := radiusMeters, mass := mass,
           slipFactor := slipFactor, dragCoeff := dragCoeff }

/-- `computeElectricField`, `src/main.js` lines 136-140. -/
noncomputable def computeElectricField (s : SimState) : ℝ :=
  if s.fieldEnabled then
    s.voltageKV * 1000 * s.fieldPolarity / max s.plateGapMeters 1e-5
  else 0

/-- The drop whose coefficients `integrateStep` actually uses, `src/main.js`
line 146: `if (!Number.isFinite(drop.dragCoeff) || drop.dragCoeff <= 0)
recomputeDropCoefficients();`.  Reals are always finite, so only the
`dragCoeff <= 0` disjunct is representable. -/
noncomputable def effectiveDrop (s : SimState) (d : Drop) : Drop :=
  if d.dragCoeff ≤ 0 then recomputeDropCoefficients s d else d

/-- The thermal-noise standard deviation, `src/main.js` line 150. -/
noncomputable def noiseStd (temperatureK dragCoeff dt : ℝ) : ℝ :=
  0.6 * Real.sqrt (2 * BOLTZMANN * temperatureK * dragCoeff / max dt 1e-6)

/-- The noise force, `src/main.js` line 151, with the unit-variance Gaussian
sample `xi` injected explicitly in place of `gaussianRandom()`. -/
noncomputable def noiseForce (s : SimState) (dragCoeff dt xi : ℝ) : ℝ :=
  s.noiseBoost * noiseStd s.temperatureK dragCoeff dt * xi

/-- The analytic terminal velocity used for the dynamic cap, `src/main.js`
lines 158-159.  It is computed from the pre-recompute mass and charge (lines
144-145) and the post-recompute drag coefficient (line 147). -/
noncomputable def vtAnalytic (s : SimState) (d0 : Drop) (E : ℝ) : ℝ :=
  if 0 < (effectiveDrop s d0).dragCoeff then
    (d0.mass * s.gravity + d0.chargeCoulombs * E) / (effectiveDrop s d0).dragCoeff
  else 0

/-- The dynamic speed cap, `src/main.js` lines 160-161. -/
noncomputable def speedCap (vt : ℝ) : ℝ :=
  max (max (2 * |vt|) 0.02) (BASE_MAX_SPEED * 0.25)

/-- Lines 143-164 of `src/main.js`: force sum, Euler velocity update, dynamic
speed clamp, and position update — everything of `integrateStep` before the
boundary reflection.  `gravityForce` and `electricForce` read `drop.mass` and
`drop.chargeCoulombs` before the possible coefficient recomputation of line
146, exactly as in the source. -/
noncomputable def integrateCore (s : SimState) (d0 : Drop) (dt E xi : ℝ) : Drop :=
  let gravityForce := d0.mass * s.gravity
  let electricForce := d0.chargeCoulombs * E
  let d := effectiveDrop s d0
  let dragForce := -d.dragCoeff * d.velocity
  let netForce := gravityForce + electricForce + dragForce + noiseForce s d.dragCoeff dt xi
  let accel := netForce / d.mass
  let v1 := d.velocity + accel * dt
  let cap := speedCap (vtAnalytic s d0 E)
  let v2 := clamp v1 (-cap) cap
  { d with velocity := v2, y := d.y + v2 * dt }

/-- Lower-plate reflection, `src/main.js` line 166:
`if (drop.y < 0) { drop.y = 0; drop.velocity *= -BOUNCE_DAMPING; }`. -/
noncomputable def bounceLow (d : Drop) : Drop :=
  if d.y < 0 then { d with y := 0, velocity := d.velocity * -BOUNCE_DAMPING } else d

/-- Upper-bound reflection, `src/main.js` lines 167-168:
`if (drop.y > maxY) { drop.y = maxY; drop.velocity *= -BOUNCE_DAMPING; }`. -/
noncomputable def bounceHigh (gap : ℝ) (d : Drop) : Drop :=
  if gap < d.y then { d with y := gap, velocity := d.velocity * -BOUNCE_DAMPING } else d

/-- Boundary reflection, `src/main.js` lines 166-168 (line 166 runs first). -/
noncomputable def applyBounce (gap : ℝ) (d : Drop) : Drop :=
  bounceHigh gap (bounceLow d)

/-- `integrateStep`, `src/main.js` lines 143-169. -/
noncomputable def integrateStep (s : SimState) (d : Drop) (dt E xi : ℝ) : Drop :=
  applyBounce s.plateGapMeters (integrateCore s d dt E xi)

/-- The initial `state` literal of `src/main.js` lines 32-46. -/
def state0 : SimState :=
  { running := true, voltageKV := 2.0, plateGapMeters := 0.005,
    radiusMicrons := 0.9, viscosity := 1.8e-5, temperatureK := 295,
    noiseBoost := 1, fieldEnabled := true, gravity := 9.81,
    pulseTimer := 0, fieldPolarity := 1 }

/-- The initial `drop` literal of `src/main.js` lines 48-57. -/
noncomputable def drop0 : Drop :=
  { y := 0.005 * 0.35, velocity := 0, chargeCoulombs := -8 * ELECTRON_CHARGE,
    radiusMeters := 0.9e-6, mass := 0, slipFactor := 1, dragCoeff := 0 }

/-! ### Helper lemmas -/

lemma effectiveDrop_y (s : SimState) (d : Drop) : (effectiveDrop s d).y = d.y := by
  unfold effectiveDrop recomputeDropCoefficients
  split <;> rfl

lemma effectiveDrop_velocity (s : SimState) (d : Drop) :
    (effectiveDrop s d).velocity = d.velocity := by
  unfold effectiveDrop recomputeDropCoefficients
  split <;> rfl

lemma speedCap_pos (vt : ℝ) : 0 < speedCap vt := by
  have h : BASE_MAX_SPEED * 0.25 ≤ speedCap vt := le_max_right _ _
  have h2 : (0 : ℝ) < BASE_MAX_SPEED * 0.25 := by norm_num [BASE_MAX_SPEED]
  linarith

lemma abs_clamp_le (v cap : ℝ) (hcap : 0 ≤ cap) : |clamp v (-cap) cap| ≤ cap := by
  rw [abs_le]
  constructor
  · exact le_min (le_max_right _ _) (by linarith)
  · exact min_le_right _ _

lemma abs_bounce_damped_le (w : ℝ) : |w * -BOUNCE_DAMPING| ≤ |w| := by
  rw [abs_mul, abs_neg, BOUNCE_DAMPING, abs_of_pos (by norm_num : (0:ℝ) < 0.3)]
  nlinarith [abs_nonneg w]

lemma bounceLow_velocity_abs_le (d : Drop) :
    |(bounceLow d).velocity| ≤ |d.velocity| := by
  unfold bounceLow
  split_ifs
  · exact abs_bounce_damped_le d.velocity
  · exact le_refl _

lemma bounceHigh_velocity_abs_le (gap : ℝ) (d : Drop) :
    |(bounceHigh gap d).velocity| ≤ |d.velocity| := by
  unfold bounceHigh
  split_ifs
  · exact abs_bounce_damped_le d.velocity
  · exact le_refl _

lemma applyBounce_velocity_abs_le (gap : ℝ) (d : Drop) :
    |(applyBounce gap d).velocity| ≤ |d.velocity| :=
  le_trans (bounceHigh_velocity_abs_le gap (bounceLow d)) (bounceLow_velocity_abs_le d)

lemma applyBounce_low (gap : ℝ) (d : Drop) (hgap : 0 ≤ gap) (h : d.y < 0) :
    (applyBounce gap d).y = 0
    ∧ (applyBounce gap d).velocity = d.velocity * -BOUNCE_DAMPING := by
  have h2 : ¬ gap < (0 : ℝ) := not_lt.mpr hgap
  simp [applyBounce, bounceLow, bounceHigh, h, h2]

lemma applyBounce_high (gap : ℝ) (d : Drop) (hgap : 0 ≤ gap) (h : gap < d.y) :
    (applyBounce gap d).y = gap
    ∧ (applyBounce gap d).velocity = d.velocity * -BOUNCE_DAMPING := by
  have h1 : ¬ d.y < 0 := by linarith
  simp [applyBounce, bounceLow, bounceHigh, h, h1]

lemma applyBounce_mem (gap : ℝ) (d : Drop) (hgap : 0 ≤ gap) :
    0 ≤ (applyBounce gap d).y ∧ (applyBounce gap d).y ≤ gap := by
  unfold applyBounce bounceLow bounceHigh
  split_ifs with h1 h2 h2 <;> constructor <;> simp_all <;> linarith

lemma integrateCore_velocity (s : SimState) (d : Drop) (dt E xi : ℝ) :
    (integrateCore s d dt E xi).velocity
      = clamp ((effectiveDrop s d).velocity
          + (d.mass * s.gravity + d.chargeCoulombs * E
              + -(effectiveDrop s d).dragCoeff * (effectiveDrop s d).velocity
              + noiseForce s (effectiveDrop s d).dragCoeff dt xi)
            / (effectiveDrop s d).mass * dt)
          (-speedCap (vtAnalytic s d E)) (speedCap (vtAnalytic s d E)) := rfl

lemma integrateCore_y (s : SimState) (d : Drop) (dt E xi : ℝ) :
    (integrateCore s d dt E xi).y = d.y + (integrateCore s d dt E xi).velocity * dt := by
  conv_lhs => rw [show (integrateCore s d dt E xi).y
    = (effectiveDrop s d).y + (integrateCore s d dt E xi).velocity * dt from rfl]
  rw [effectiveDrop_y]

/-! ### Claims -/

/-- Claim C1: after any sub-step the position lies in `[0, plateGap]`, and the
boundary reflection sets position to the violated bound while multiplying the
velocity by `-0.3`. -/
theorem C1_bounce_invariant (s : SimState) (d : Drop) (dt E xi : ℝ)
    (hgap : 0 ≤ s.plateGapMeters) :
    (0 ≤ (integrateStep s d dt E xi).y
      ∧ (integrateStep s d dt E xi).y ≤ s.plateGapMeters)
  ∧ ((integrateCore s d dt E xi).y < 0 →
      (integrateStep s d dt E xi).y = 0
      ∧ (integrateStep s d dt E xi).velocity
          = (integrateCore s d dt E xi).velocity * -BOUNCE_DAMPING)
  ∧ (s.plateGapMeters < (integrateCore s d dt E xi).y →
      (integrateStep s d dt E xi).y = s.plateGapMeters
      ∧ (integrateStep s d dt E xi).velocity
          = (integrateCore s d dt E xi).velocity * -BOUNCE_DAMPING) := by
  refine ⟨applyBounce_mem s.plateGapMeters (integrateCore s d dt E xi) hgap,
    fun h => applyBounce_low s.plateGapMeters (integrateCore s d dt E xi) hgap h,
    fun h => applyBounce_high s.plateGapMeters (integrateCore s d dt E xi) hgap h⟩

/-- Claim C1 witness. -/
theorem C1_bounce_invariant_witness :
    (0 : ℝ) ≤ state0.plateGapMeters
    ∧ (0 ≤ (integrateStep state0 drop0 (1 / 1800) 0 0).y
        ∧ (integrateStep state0 drop0 (1 / 1800) 0 0).y ≤ state0.plateGapMeters) :=
  ⟨by norm_num [state0],
    (C1_bounce_invariant state0 drop0 (1 / 1800) 0 0 (by norm_num [state0])).1⟩

/-- Claim C3: the Coefficient Model returns
`mass = max((4/3)·π·r³ · max(oilDensity − airDensity, 1), 1e-20)`,
`slipFactor = 1 + Kn·(1.257 + 0.4·exp(−1.1/Kn))` with
`Kn = meanFreePath / max(r, 5e-9)`, and `dragCoeff = 6·π·μ·r / slipFactor`,
where `r` is the radius in meters. -/
theorem C3_coefficient_model (s : SimState) (d : Drop) :
    (recomputeDropCoefficients s d).mass
      = max ((4 / 3) * Real.pi * (s.radiusMicrons * 1e-6) ^ 3
          * max (OIL_DENSITY - AIR_DENSITY) 1) 1e-20
  ∧ (recomputeDropCoefficients s d).slipFactor
      = 1 + (AIR_MEAN_FREE_PATH / max (s.radiusMicrons * 1e-6) 5e-9)
          * (1.257 + 0.4 * Real.exp
              (-1.1 / (AIR_MEAN_FREE_PATH / max (s.radiusMicrons * 1e-6) 5e-9)))
  ∧ (recomputeDropCoefficients s d).dragCoeff
      = 6 * Real.pi * s.viscosity * (s.radiusMicrons * 1e-6)
          / (1 + (AIR_MEAN_FREE_PATH / max (s.radiusMicrons * 1e-6) 5e-9)
              * (1.257 + 0.4 * Real.exp
                  (-1.1 / (AIR_MEAN_FREE_PATH / max (s.radiusMicrons * 1e-6) 5e-9)))) := by
  refine ⟨rfl, ?_, ?_⟩ <;>
    simp [recomputeDropCoefficients, computeSlipCorrection,
      CUNNINGHAM_A, CUNNINGHAM_B, CUNNINGHAM_C]

/-- Claim C4: for radii in `[0.3 µm, 1.5 µm]` and viscosities in
`[1e-5, 3e-5] Pa·s` the Coefficient Model returns positive mass, positive drag
coefficient, and slip factor at least 1. -/
theorem C4_coefficients_positive (s : SimState) (d : Drop)
    (h1 : 0.3 ≤ s.radiusMicrons) (h2 : s.radiusMicrons ≤ 1.5)
    (h3 : 1e-5 ≤ s.viscosity) (h4 : s.viscosity ≤ 3e-5) :
    0 < (recomputeDropCoefficients s d).mass
  ∧ 0 < (recomputeDropCoefficients s d).dragCoeff
  ∧ 1 ≤ (recomputeDropCoefficients s d).slipFactor := by
  have hr : (0 : ℝ) < s.radiusMicrons * 1e-6 := by nlinarith
  have hmax : (0 : ℝ) < max (s.radiusMicrons * 1e-6) 5e-9 :=
    lt_of_lt_of_le (by norm_num) (le_max_right _ _)
  have hkn : 0 < AIR_MEAN_FREE_PATH / max (s.radiusMicrons * 1e-6) 5e-9 :=
    div_pos (by norm_num [AIR_MEAN_FREE_PATH]) hmax
  have hslip : 1 ≤ (recomputeDropCoefficients s d).slipFactor := by
    show (1 : ℝ) ≤ 1 + _ * (CUNNINGHAM_A + CUNNINGHAM_B * Real.exp _)
    have hbr : (0 : ℝ) < CUNNINGHAM_A + CUNNINGHAM_B * Real.exp
        (-CUNNINGHAM_C / (AIR_MEAN_FREE_PATH / max (s.radiusMicrons * 1e-6) 5e-9)) := by
      have := Real.exp_pos
        (-CUNNINGHAM_C / (AIR_MEAN_FREE_PATH / max (s.radiusMicrons * 1e-6) 5e-9))
      norm_num [CUNNINGHAM_A, CUNNINGHAM_B]
      nlinarith
    nlinarith
  refine ⟨?_, ?_, hslip⟩
  · exact lt_of_lt_of_le (by norm_num) (le_max_right _ _)
  · show (0 : ℝ) < 6 * Real.pi * s.viscosity * (s.radiusMicrons * 1e-6) / _
    apply div_pos
    · have hmu : (0 : ℝ) < s.viscosity := by linarith
      have h6pi : (0 : ℝ) < 6 * Real.pi := by positivity
      exact mul_pos (mul_pos h6pi hmu) hr
    · exact lt_of_lt_of_le one_pos hslip

/-- Claim C4 witness. -/
theorem C4_coefficients_positive_witness :
    0 < (recomputeDropCoefficients state0 drop0).mass
  ∧ 0 < (recomputeDropCoefficients state0 drop0).dragCoeff
  ∧ 1 ≤ (recomputeDropCoefficients state0 drop0).slipFactor :=
  C4_coefficients_positive state0 drop0 (by norm_num [state0]) (by norm_num [state0])
    (by norm_num [state0]) (by norm_num [state0])

/-- Claim C5: after every call to `integrateStep` the velocity magnitude is at
most the dynamic speed cap `max(2·|vt|, 0.02)` floored at `0.25·0.12`, with
`vt = (gravityForce + electricForce)/dragCoeff`; the clamp is applied to the
velocity before the position update (the position increment uses the already
clamped velocity). -/
theorem C5_velocity_cap (s : SimState) (d : Drop) (dt E xi : ℝ) :
    |(integrateStep s d dt E xi).velocity| ≤ speedCap (vtAnalytic s d E)
  ∧ |(integrateCore s d dt E xi).velocity| ≤ speedCap (vtAnalytic s d E)
  ∧ (integrateCore s d dt E xi).y
      = d.y + (integrateCore s d dt E xi).velocity * dt := by
  have hcap := speedCap_pos (vtAnalytic s d E)
  have hcore : |(integrateCore s d dt E xi).velocity| ≤ speedCap (vtAnalytic s d E) := by
    rw [integrateCore_velocity]
    exact abs_clamp_le _ _ (le_of_lt hcap)
  refine ⟨?_, hcore, integrateCore_y s d dt E xi⟩
  exact le_trans (applyBounce_velocity_abs_le _ _) hcore

/-- Claim C2 counterexample: at `dt = 1e-7` (which satisfies
`0 < dt ≤ 1/1800`) the code's noise standard deviation, which divides by
`max(dt, 1e-6)` (line 150), differs from the claimed `0.6·sqrt(2·kB·T·c/dt)`. -/
theorem C2_noise_std_counterexample :
    (0 : ℝ) < 1e-7 ∧ (1e-7 : ℝ) ≤ 1 / 1800
    ∧ noiseStd 295 1e-10 1e-7
        ≠ 0.6 * Real.sqrt (2 * BOLTZMANN * 295 * 1e-10 / 1e-7) := by
  refine ⟨by norm_num, by norm_num, ?_⟩
  unfold noiseStd
  have hmax : max (1e-7 : ℝ) 1e-6 = 1e-6 := max_eq_right (by norm_num)
  rw [hmax]
  intro heq
  have h1 : Real.sqrt (2 * BOLTZMANN * 295 * 1e-10 / 1e-6)
      < Real.sqrt (2 * BOLTZMANN * 295 * 1e-10 / 1e-7) := by
    apply Real.sqrt_lt_sqrt
    · norm_num [BOLTZMANN]
    · norm_num [BOLTZMANN]
  linarith

/-- Claim C2 amended: for `1e-6 s ≤ dt ≤ 1/1800 s` the noise standard
deviation equals `0.6·sqrt(2·kB·T·dragCoeff/dt)` (below `1e-6 s` the code
floors the divisor at `1e-6`, so the std saturates instead of growing as
`1/sqrt(dt)`), and the noise force equals `noiseBoost · noiseStd · sample`. -/
theorem C2_noise_std_amended (T c dt : ℝ) (h1 : 1e-6 ≤ dt) (h2 : dt ≤ 1 / 1800) :
    noiseStd T c dt = 0.6 * Real.sqrt (2 * BOLTZMANN * T * c / dt)
  ∧ ∀ (s : SimState) (c' xi : ℝ),
      noiseForce s c' dt xi = s.noiseBoost * noiseStd s.temperatureK c' dt * xi := by
  constructor
  · unfold noiseStd
    rw [max_eq_left h1]
  · intro s c' xi
    rfl

/-- Claim C2 amended witness. -/
theorem C2_noise_std_amended_witness :
    noiseStd 295 1e-10 5e-4 = 0.6 * Real.sqrt (2 * BOLTZMANN * 295 * 1e-10 / 5e-4) :=
  (C2_noise_std_amended 295 1e-10 5e-4 (by norm_num) (by norm_num)).1

/-- A parameter configuration with noise boost 0 and the field disabled,
used to exercise the gravity-only behaviour of `integrateStep`. -/
def s6 : SimState :=
  { running := true, voltageKV := 2.0, plateGapMeters := 0.005,
    radiusMicrons := 0.9, viscosity := 1.8e-5, temperatureK := 295,
    noiseBoost := 0, fieldEnabled := false, gravity := 9.81,
    pulseTimer := 0, fieldPolarity := 1 }

/-- A drop with zero charge, unit mass and unit drag coefficient, resting at
`y = 1.75 mm` between the plates of `s6`. -/
def d6 : Drop :=
  { y := 0.00175, velocity := 0, chargeCoulombs := 0, radiusMeters := 9e-7,
    mass := 1, slipFactor := 1, dragCoeff := 1 }

/-- Claim C6 counterexample: with noise boost 0, field disabled, zero charge
and positive mass, one sub-step moves the drop's position strictly away from
0 (gravity increases `y` in the code; position 0 is the upper plate, not the
lower one). -/
theorem C6_counterexample :
    s6.noiseBoost = 0 ∧ s6.fieldEnabled = false ∧ d6.chargeCoulombs = 0
    ∧ 0 < d6.mass
    ∧ d6.y < (integrateStep s6 d6 (1 / 1800) (computeElectricField s6) 0).y := by
  have hE : computeElectricField s6 = 0 := by simp [computeElectricField, s6]
  have heff : effectiveDrop s6 d6 = d6 := by
    unfold effectiveDrop
    rw [if_neg]
    norm_num [d6]
  have hvt : vtAnalytic s6 d6 0 = 9.81 := by
    unfold vtAnalytic
    rw [heff, if_pos (by norm_num [d6])]
    norm_num [s6, d6]
  have hcap : speedCap (vtAnalytic s6 d6 0) = 19.62 := by
    rw [hvt]
    unfold speedCap BASE_MAX_SPEED
    rw [abs_of_pos (by norm_num : (0 : ℝ) < 9.81)]
    rw [max_eq_left (by norm_num : (0.02 : ℝ) ≤ 2 * 9.81)]
    rw [max_eq_left (by norm_num : (0.12 * 0.25 : ℝ) ≤ 2 * 9.81)]
    norm_num
  have hv : (integrateCore s6 d6 (1 / 1800) 0 0).velocity = 9.81 * (1 / 1800) := by
    rw [integrateCore_velocity, heff, hcap]
    have hnoise : noiseForce s6 d6.dragCoeff (1 / 1800) 0 = 0 := by
      unfold noiseForce
      ring
    rw [hnoise]
    unfold clamp
    norm_num [s6, d6, max_def, min_def]
  have hy : (integrateCore s6 d6 (1 / 1800) 0 0).y
      = 0.00175 + 9.81 * (1 / 1800) * (1 / 1800) := by
    rw [integrateCore_y, hv]
    norm_num [d6]
  refine ⟨rfl, rfl, rfl, by norm_num [d6], ?_⟩
  rw [hE]
  show d6.y < (applyBounce s6.plateGapMeters (integrateCore s6 d6 (1 / 1800) 0 0)).y
  have hylow : ¬ (integrateCore s6 d6 (1 / 1800) 0 0).y < 0 := by
    rw [hy]
    norm_num
  have hyhigh : ¬ s6.plateGapMeters < (integrateCore s6 d6 (1 / 1800) 0 0).y := by
    rw [hy]
    norm_num [s6]
  have hnolow : bounceLow (integrateCore s6 d6 (1 / 1800) 0 0)
      = integrateCore s6 d6 (1 / 1800) 0 0 := by
    unfold bounceLow
    rw [if_neg hylow]
  have hnohigh : applyBounce s6.plateGapMeters (integrateCore s6 d6 (1 / 1800) 0 0)
      = integrateCore s6 d6 (1 / 1800) 0 0 := by
    unfold applyBounce
    rw [hnolow]
    unfold bounceHigh
    rw [if_neg hyhigh]
  rw [hnohigh, hy]
  norm_num [d6]

/-- Claim C6 amended: in the code's coordinate convention position 0 is the
upper plate and position = gap the lower plate, so a gravity-only drop moves
toward *increasing* `y`; moreover monotonicity additionally requires a
nonnegative starting velocity and the explicit-Euler stability condition
`dt·dragCoeff ≤ mass` (otherwise the step overshoots and the velocity
oscillates).  Under those conditions each sub-step moves the position
monotonically toward the lower plate `y = gap`, strictly while not yet
resting on it. -/
theorem C6_monotone_toward_gap_amended (s : SimState) (d : Drop) (dt xi : ℝ)
    (hnb : s.noiseBoost = 0) (hfe : s.fieldEnabled = false)
    (hq : d.chargeCoulombs = 0) (hm : 0 < d.mass) (hc : 0 < d.dragCoeff)
    (hg : 0 < s.gravity) (hdt : 0 < dt) (hstable : dt * d.dragCoeff ≤ d.mass)
    (hv : 0 ≤ d.velocity) (hy0 : 0 ≤ d.y) (hy1 : d.y ≤ s.plateGapMeters) :
    d.y ≤ (integrateStep s d dt (computeElectricField s) xi).y
    ∧ (d.y < s.plateGapMeters →
        d.y < (integrateStep s d dt (computeElectricField s) xi).y) := by
  have hE : computeElectricField s = 0 := by simp [computeElectricField, hfe]
  have heff : effectiveDrop s d = d := by
    unfold effectiveDrop
    rw [if_neg (not_le.mpr hc)]
  have hnoise : noiseForce s d.dragCoeff dt xi = 0 := by
    unfold noiseForce
    rw [hnb]
    ring
  have hv2 : 0 < (integrateCore s d dt (computeElectricField s) xi).velocity := by
    rw [integrateCore_velocity, heff, hnoise, hq]
    have hpre : 0 < d.velocity
        + (d.mass * s.gravity + 0 * computeElectricField s
            + -d.dragCoeff * d.velocity + 0) / d.mass * dt := by
      have hnum : 0 < d.velocity * d.mass
          + (d.mass * s.gravity + -d.dragCoeff * d.velocity) * dt := by
        nlinarith [mul_nonneg hv (sub_nonneg.mpr hstable),
          mul_pos (mul_pos hm hg) hdt]
      have heq : d.velocity
          + (d.mass * s.gravity + 0 * computeElectricField s
              + -d.dragCoeff * d.velocity + 0) / d.mass * dt
          = (d.velocity * d.mass
              + (d.mass * s.gravity + -d.dragCoeff * d.velocity) * dt) / d.mass := by
        field_simp
      rw [heq]
      exact div_pos hnum hm
    unfold clamp
    exact lt_min (lt_of_lt_of_le hpre (le_max_left _ _))
      (speedCap_pos (vtAnalytic s d (computeElectricField s)))
  have hcy : d.y < (integrateCore s d dt (computeElectricField s) xi).y := by
    rw [integrateCore_y]
    nlinarith [mul_pos hv2 hdt]
  unfold integrateStep
  have hlow : bounceLow (integrateCore s d dt (computeElectricField s) xi)
      = integrateCore s d dt (computeElectricField s) xi := by
    unfold bounceLow
    rw [if_neg (not_lt.mpr (by linarith))]
  by_cases hhigh : s.plateGapMeters < (integrateCore s d dt (computeElectricField s) xi).y
  · have : (applyBounce s.plateGapMeters
        (integrateCore s d dt (computeElectricField s) xi)).y = s.plateGapMeters := by
      unfold applyBounce
      rw [hlow]
      unfold bounceHigh
      rw [if_pos hhigh]
    rw [this]
    exact ⟨hy1, fun h => h⟩
  · have : (applyBounce s.plateGapMeters
        (integrateCore s d dt (computeElectricField s) xi)).y
        = (integrateCore s d dt (computeElectricField s) xi).y := by
      unfold applyBounce
      rw [hlow]
      unfold bounceHigh
      rw [if_neg hhigh]
    rw [this]
    exact ⟨le_of_lt hcy, fun _ => hcy⟩

/-- Claim C6 amended witness. -/
theorem C6_monotone_toward_gap_amended_witness :
    d6.y ≤ (integrateStep s6 d6 (1 / 1800) (computeElectricField s6) 0).y :=
  (C6_monotone_toward_gap_amended s6 d6 (1 / 1800) 0 rfl rfl rfl
    (by norm_num [d6]) (by norm_num [d6]) (by norm_num [s6]) (by norm_num)
    (by norm_num [d6]) (by norm_num [d6]) (by norm_num [d6])
    (by norm_num [d6, s6])).1

lemma div_antitone_of_le (a k1 k2 : ℝ) (ha : 0 ≤ a) (h2 : 0 < k2) (h12 : k2 ≤ k1) :
    a / k1 ≤ a / k2 := by
  rw [div_eq_mul_inv, div_eq_mul_inv]
  exact mul_le_mul_of_nonneg_left (inv_le_inv_of_le h2 h12) ha

lemma slip_term_mono (k1 k2 : ℝ) (h2 : 0 < k2) (h12 : k2 ≤ k1) :
    k2 * (CUNNINGHAM_A + CUNNINGHAM_B * Real.exp (-CUNNINGHAM_C / k2))
      ≤ k1 * (CUNNINGHAM_A + CUNNINGHAM_B * Real.exp (-CUNNINGHAM_C / k1)) := by
  have h1 : 0 < k1 := lt_of_lt_of_le h2 h12
  have hexp : Real.exp (-CUNNINGHAM_C / k2) ≤ Real.exp (-CUNNINGHAM_C / k1) := by
    apply Real.exp_le_exp.mpr
    rw [neg_div, neg_div, neg_le_neg_iff]
    exact div_antitone_of_le CUNNINGHAM_C k1 k2 (by norm_num [CUNNINGHAM_C]) h2 h12
  have hbr : CUNNINGHAM_A + CUNNINGHAM_B * Real.exp (-CUNNINGHAM_C / k2)
      ≤ CUNNINGHAM_A + CUNNINGHAM_B * Real.exp (-CUNNINGHAM_C / k1) :=
    add_le_add_left (mul_le_mul_of_nonneg_left hexp (by norm_num [CUNNINGHAM_B])) _
  have hnn : 0 ≤ CUNNINGHAM_A + CUNNINGHAM_B * Real.exp (-CUNNINGHAM_C / k2) := by
    have := Real.exp_pos (-CUNNINGHAM_C / k2)
    norm_num [CUNNINGHAM_A, CUNNINGHAM_B]
    nlinarith
  exact mul_le_mul h12 hbr hnn (le_of_lt h1)

/-- Claim C8: for a fixed viscosity (on which the slip factor does not
depend), `computeSlipCorrection` is monotonically decreasing in the radius,
and it tends to 1 as the radius tends to infinity. -/
theorem C8_slip_monotone_and_limit :
    (∀ r1 r2 : ℝ, r1 < r2 → computeSlipCorrection r2 ≤ computeSlipCorrection r1)
  ∧ Filter.Tendsto computeSlipCorrection Filter.atTop (nhds 1) := by
  constructor
  · intro r1 r2 h
    simp only [computeSlipCorrection]
    have ha : (0 : ℝ) < max r1 5e-9 := lt_of_lt_of_le (by norm_num) (le_max_right _ _)
    have hb : (0 : ℝ) < max r2 5e-9 := lt_of_lt_of_le (by norm_num) (le_max_right _ _)
    have hab : max r1 5e-9 ≤ max r2 5e-9 := max_le_max (le_of_lt h) (le_refl _)
    have hk2 : 0 < AIR_MEAN_FREE_PATH / max r2 5e-9 :=
      div_pos (by norm_num [AIR_MEAN_FREE_PATH]) hb
    have hk12 : AIR_MEAN_FREE_PATH / max r2 5e-9 ≤ AIR_MEAN_FREE_PATH / max r1 5e-9 :=
      div_antitone_of_le AIR_MEAN_FREE_PATH _ _ (by norm_num [AIR_MEAN_FREE_PATH]) ha hab
    exact add_le_add_left (slip_term_mono _ _ hk2 hk12) 1
  · have hlim : Filter.Tendsto
        (fun r : ℝ => 1 + AIR_MEAN_FREE_PATH * (CUNNINGHAM_A + CUNNINGHAM_B) / r)
        Filter.atTop (nhds 1) := by
      have h0 : Filter.Tendsto
          (fun r : ℝ => AIR_MEAN_FREE_PATH * (CUNNINGHAM_A + CUNNINGHAM_B) / r)
          Filter.atTop (nhds 0) :=
        Filter.Tendsto.const_div_atTop Filter.tendsto_id _
      simpa using Filter.Tendsto.add (tendsto_const_nhds (x := (1 : ℝ))) h0
    apply tendsto_of_tendsto_of_tendsto_of_le_of_le' tendsto_const_nhds hlim
    · apply Filter.Eventually.of_forall
      intro r
      simp only [computeSlipCorrection]
      have hmax : (0 : ℝ) < max r 5e-9 := lt_of_lt_of_le (by norm_num) (le_max_right _ _)
      have hkn : 0 < AIR_MEAN_FREE_PATH / max r 5e-9 :=
        div_pos (by norm_num [AIR_MEAN_FREE_PATH]) hmax
      have hbr : (0 : ℝ) < CUNNINGHAM_A + CUNNINGHAM_B
          * Real.exp (-CUNNINGHAM_C / (AIR_MEAN_FREE_PATH / max r 5e-9)) := by
        have := Real.exp_pos (-CUNNINGHAM_C / (AIR_MEAN_FREE_PATH / max r 5e-9))
        norm_num [CUNNINGHAM_A, CUNNINGHAM_B]
        nlinarith
      nlinarith [mul_pos hkn hbr]
    · rw [Filter.eventually_atTop]
      refine ⟨1, fun r hr => ?_⟩
      simp only [computeSlipCorrection]
      have hmax : max r 5e-9 = r := max_eq_left (by linarith)
      rw [hmax]
      have hrpos : (0 : ℝ) < r := by linarith
      have hkn : 0 < AIR_MEAN_FREE_PATH / r :=
        div_pos (by norm_num [AIR_MEAN_FREE_PATH]) hrpos
      have hexp : Real.exp (-CUNNINGHAM_C / (AIR_MEAN_FREE_PATH / r)) ≤ 1 := by
        rw [Real.exp_le_one_iff]
        rw [neg_div]
        simp only [neg_nonpos]
        exact div_nonneg (by norm_num [CUNNINGHAM_C]) (le_of_lt hkn)
      have hbr : CUNNINGHAM_A + CUNNINGHAM_B
            * Real.exp (-CUNNINGHAM_C / (AIR_MEAN_FREE_PATH / r))
          ≤ CUNNINGHAM_A + CUNNINGHAM_B := by
        have hB : (0 : ℝ) ≤ CUNNINGHAM_B := by norm_num [CUNNINGHAM_B]
        nlinarith [hexp, hB]
      have hstep : AIR_MEAN_FREE_PATH / r
            * (CUNNINGHAM_A + CUNNINGHAM_B
                * Real.exp (-CUNNINGHAM_C / (AIR_MEAN_FREE_PATH / r)))
          ≤ AIR_MEAN_FREE_PATH / r * (CUNNINGHAM_A + CUNNINGHAM_B) :=
        mul_le_mul_of_nonneg_left hbr (le_of_lt hkn)
      have hrw : AIR_MEAN_FREE_PATH / r * (CUNNINGHAM_A + CUNNINGHAM_B)
          = AIR_MEAN_FREE_PATH * (CUNNINGHAM_A + CUNNINGHAM_B) / r := by
        ring
      linarith [hstep, hrw ▸ hstep]

/-- Claim C8 witness. -/
theorem C8_slip_monotone_and_limit_witness :
    computeSlipCorrection 2e-6 ≤ computeSlipCorrection 1e-6 :=
  C8_slip_monotone_and_limit.1 1e-6 2e-6 (by norm_num)

/-- The sanitisation of the frame duration, `src/main.js` line 184:
`Number.isFinite(dt) ? Math.max(0, dt) : 0`.  A JavaScript number that may be
non-finite is modelled as `Option ℝ`, with `none` standing for `NaN` or
`±Infinity`. -/
noncomputable def sanitizeDt : Option ℝ → ℝ
  | none => 0
  | some x => max 0 x

/-- The list of sub-step durations consumed by the `while` loop of `update`,
`src/main.js` lines 190-197: while `remaining > 0`, consume
`min(remaining, SUBSTEP_DT)`. -/
noncomputable def substepDurations (remaining : ℝ) : List ℝ :=
  if h : 0 < remaining then
    min remaining SUBSTEP_DT
      :: substepDurations (remaining - min remaining SUBSTEP_DT)
  else []
termination_by (Int.ceil (1800 * remaining)).toNat
decreasing_by
  by_cases hle : remaining ≤ SUBSTEP_DT
  · have hmin : min remaining SUBSTEP_DT = remaining := min_eq_left hle
    rw [hmin]
    have h0 : (1800 : ℝ) * (remaining - remaining) = 0 := by ring
    rw [h0]
    have h1 : (0 : ℤ) < Int.ceil ((1800 : ℝ) * remaining) := by
      rw [Int.ceil_pos]
      nlinarith
    simp only [Int.ceil_zero]
    omega
  · push_neg at hle
    have hmin : min remaining SUBSTEP_DT = SUBSTEP_DT := min_eq_right (le_of_lt hle)
    rw [hmin]
    have heq : (1800 : ℝ) * (remaining - SUBSTEP_DT) = 1800 * remaining - 1 := by
      rw [SUBSTEP_DT]
      ring
    rw [heq, Int.ceil_sub_one]
    have h1 : (1 : ℤ) < Int.ceil ((1800 : ℝ) * remaining) := by
      rw [Int.lt_ceil]
      rw [SUBSTEP_DT] at hle
      push_cast
      nlinarith
    omega

/-- One iteration of the sub-step loop, `src/main.js` lines 191-195: decrement
the pulse timer, restore default field polarity when it expires, recompute the
electric field, and run `integrateStep` once. -/
noncomputable def substepOnce (acc : SimState × Drop) (stepDt xi : ℝ) : SimState × Drop :=
  let s1 := { acc.1 with pulseTimer := max 0 (acc.1.pulseTimer - stepDt) }
  let s2 := if s1.pulseTimer = 0 ∧ s1.fieldPolarity ≠ 1 then
    { s1 with fieldPolarity := 1 } else s1
  (s2, integrateStep s2 acc.2 stepDt (computeElectricField s2) xi)

/-- `update`, `src/main.js` lines 183-200, restricted to its physics effect
(the trail bookkeeping and the returned field value are rendering-only).  The
Gaussian samples of the successive sub-steps are injected as `xi 0, xi 1, …`.
When not running, or when the clamped duration is zero, the loop body never
executes and the state is unchanged, exactly as in the early returns of the
source. -/
noncomputable def update (s : SimState) (d : Drop) (dt : Option ℝ) (xi : ℕ → ℝ) :
    SimState × Drop :=
  let safeDt := sanitizeDt dt
  if s.running then
    let remaining := min safeDt MAX_FRAME_DT
    List.foldl (fun acc p => substepOnce acc p.2 (xi p.1)) (s, d)
      (substepDurations remaining).enum
  else (s, d)

lemma substepDurations_eq (r : ℝ) :
    substepDurations r = if 0 < r then
      min r SUBSTEP_DT :: substepDurations (r - min r SUBSTEP_DT) else [] := by
  by_cases h : 0 < r
  · rw [substepDurations, dif_pos h, if_pos h]
  · rw [substepDurations, dif_neg h, if_neg h]

lemma substepDurations_nonpos (r : ℝ) (h : r ≤ 0) : substepDurations r = [] := by
  rw [substepDurations_eq, if_neg (not_lt.mpr h)]

lemma SUBSTEP_DT_pos : (0 : ℝ) < SUBSTEP_DT := by
  norm_num [SUBSTEP_DT]

lemma substepDurations_sum_aux :
    ∀ (n : ℕ) (r : ℝ), 0 ≤ r → r ≤ n * SUBSTEP_DT → (substepDurations r).sum = r := by
  intro n
  induction n with
  | zero =>
    intro r h0 hn
    have hr : r = 0 := le_antisymm (by simpa using hn) h0
    subst hr
    rw [substepDurations_nonpos 0 (le_refl 0)]
    simp
  | succ n ih =>
    intro r h0 hn
    by_cases hr : 0 < r
    · rw [substepDurations_eq, if_pos hr, List.sum_cons]
      by_cases hle : r ≤ SUBSTEP_DT
      · have hmin : min r SUBSTEP_DT = r := min_eq_left hle
        rw [hmin, substepDurations_nonpos (r - r) (by linarith)]
        simp
      · push_neg at hle
        have hmin : min r SUBSTEP_DT = SUBSTEP_DT := min_eq_right (le_of_lt hle)
        rw [hmin]
        have hcast : ((n + 1 : ℕ) : ℝ) * SUBSTEP_DT = n * SUBSTEP_DT + SUBSTEP_DT := by
          push_cast
          ring
        have := ih (r - SUBSTEP_DT) (by linarith) (by rw [hcast] at hn; linarith)
        rw [this]
        ring
    · rw [substepDurations_nonpos r (not_lt.mp hr)]
      have : r = 0 := le_antisymm (not_lt.mp hr) h0
      simp [this]

lemma substepDurations_length_aux :
    ∀ (n : ℕ) (r : ℝ), r ≤ n * SUBSTEP_DT → (substepDurations r).length ≤ n := by
  intro n
  induction n with
  | zero =>
    intro r hn
    rw [substepDurations_nonpos r (by simpa using hn)]
    simp
  | succ n ih =>
    intro r hn
    by_cases hr : 0 < r
    · rw [substepDurations_eq, if_pos hr, List.length_cons]
      by_cases hle : r ≤ SUBSTEP_DT
      · have hmin : min r SUBSTEP_DT = r := min_eq_left hle
        rw [hmin, substepDurations_nonpos (r - r) (by linarith)]
        simp
      · push_neg at hle
        have hmin : min r SUBSTEP_DT = SUBSTEP_DT := min_eq_right (le_of_lt hle)
        rw [hmin]
        have hcast : ((n + 1 : ℕ) : ℝ) * SUBSTEP_DT = n * SUBSTEP_DT + SUBSTEP_DT := by
          push_cast
          ring
        have := ih (r - SUBSTEP_DT) (by rw [hcast] at hn; linarith)
        omega
    · rw [substepDurations_nonpos r (not_lt.mp hr)]
      simp

lemma substepDurations_mem (r : ℝ) :
    ∀ x ∈ substepDurations r, 0 < x ∧ x ≤ SUBSTEP_DT := by
  obtain ⟨n, hn⟩ : ∃ n : ℕ, r ≤ n * SUBSTEP_DT := by
    obtain ⟨n, hn⟩ := exists_nat_ge (r / SUBSTEP_DT)
    rw [div_le_iff SUBSTEP_DT_pos] at hn
    exact ⟨n, by linarith⟩
  induction n generalizing r with
  | zero =>
    intro x hx
    rw [substepDurations_nonpos r (by simpa using hn)] at hx
    simp at hx
  | succ n ih =>
    intro x hx
    by_cases hr : 0 < r
    · rw [substepDurations_eq, if_pos hr] at hx
      rcases List.mem_cons.mp hx with hhead | htail
      · subst hhead
        exact ⟨lt_min hr SUBSTEP_DT_pos, min_le_right _ _⟩
      · by_cases hle : r ≤ SUBSTEP_DT
        · rw [min_eq_left hle, substepDurations_nonpos (r - r) (by linarith)] at htail
          simp at htail
        · push_neg at hle
          rw [min_eq_right (le_of_lt hle)] at htail
          have hcast : ((n + 1 : ℕ) : ℝ) * SUBSTEP_DT = n * SUBSTEP_DT + SUBSTEP_DT := by
            push_cast
            ring
          exact ih (r - SUBSTEP_DT) (by rw [hcast] at hn; linarith) x htail
    · rw [substepDurations_nonpos r (not_lt.mp hr)] at hx
      simp at hx

lemma frame_budget_nonneg (dt : Option ℝ) : 0 ≤ min (sanitizeDt dt) MAX_FRAME_DT := by
  apply le_min
  · cases dt with
    | none => exact le_refl 0
    | some x => exact le_max_left 0 x
  · norm_num [MAX_FRAME_DT]

lemma frame_budget_le (dt : Option ℝ) :
    min (sanitizeDt dt) MAX_FRAME_DT ≤ (90 : ℕ) * SUBSTEP_DT := by
  have h : ((90 : ℕ) : ℝ) * SUBSTEP_DT = MAX_FRAME_DT := by
    norm_num [SUBSTEP_DT, MAX_FRAME_DT]
  rw [h]
  exact min_le_right _ _

/-- Claim C9: a call to `update` while running consumes exactly
`min(sanitized dt, 1/20)` seconds, as consecutive sub-steps each of duration
`min(remaining, 1/1800)`, with one `substepOnce` (pulse-timer update, field
recomputation, one `integrateStep`) per sub-step; non-finite frame durations
sanitize to 0 and negative ones are floored at 0. -/
theorem C9_update_substepping (dt : Option ℝ) (s : SimState) (d : Drop) (xi : ℕ → ℝ)
    (hrun : s.running = true) :
    (substepDurations (min (sanitizeDt dt) MAX_FRAME_DT)).sum
        = min (sanitizeDt dt) MAX_FRAME_DT
  ∧ update s d dt xi = List.foldl (fun acc p => substepOnce acc p.2 (xi p.1)) (s, d)
      (substepDurations (min (sanitizeDt dt) MAX_FRAME_DT)).enum
  ∧ substepDurations (min (sanitizeDt dt) MAX_FRAME_DT)
      = (if 0 < min (sanitizeDt dt) MAX_FRAME_DT then
          min (min (sanitizeDt dt) MAX_FRAME_DT) SUBSTEP_DT
            :: substepDurations (min (sanitizeDt dt) MAX_FRAME_DT
                - min (min (sanitizeDt dt) MAX_FRAME_DT) SUBSTEP_DT)
         else [])
  ∧ sanitizeDt none = 0 ∧ (∀ x : ℝ, x ≤ 0 → sanitizeDt (some x) = 0) := by
  refine ⟨substepDurations_sum_aux 90 _ (frame_budget_nonneg dt) (frame_budget_le dt),
    ?_, substepDurations_eq _, rfl, fun x hx => max_eq_left hx⟩
  simp only [update, hrun]
  rfl

/-- Claim C9 witness. -/
theorem C9_update_substepping_witness :
    (substepDurations (min (sanitizeDt (some 1e-3)) MAX_FRAME_DT)).sum
      = min (sanitizeDt (some 1e-3)) MAX_FRAME_DT :=
  (C9_update_substepping (some 1e-3) state0 drop0 (fun _ => 0) rfl).1

/-- Claim C10: the sub-stepping loop of `update` terminates for every input
frame duration (including the non-finite ones modelled by `none`): it performs
at most 90 iterations, each consuming a strictly positive duration of at most
`1/1800 s`, and the consumed total equals the clamped budget exactly, so the
final iteration leaves a remaining duration of exactly zero. -/
theorem C10_loop_terminates (dt : Option ℝ) :
    (substepDurations (min (sanitizeDt dt) MAX_FRAME_DT)).length ≤ 90
  ∧ (∀ x ∈ substepDurations (min (sanitizeDt dt) MAX_FRAME_DT),
      0 < x ∧ x ≤ SUBSTEP_DT)
  ∧ min (sanitizeDt dt) MAX_FRAME_DT
      - (substepDurations (min (sanitizeDt dt) MAX_FRAME_DT)).sum = 0 := by
  refine ⟨substepDurations_length_aux 90 _ (frame_budget_le dt),
    substepDurations_mem _, ?_⟩
  rw [substepDurations_sum_aux 90 _ (frame_budget_nonneg dt) (frame_budget_le dt)]
  ring

/-- Claim C10 witness. -/
theorem C10_loop_terminates_witness :
    0 < min (min (sanitizeDt (some 1e-3)) MAX_FRAME_DT) SUBSTEP_DT
    ∧ min (min (sanitizeDt (some 1e-3)) MAX_FRAME_DT) SUBSTEP_DT ≤ SUBSTEP_DT := by
  have hR : min (sanitizeDt (some 1e-3)) MAX_FRAME_DT = 1e-3 := by
    have h1 : sanitizeDt (some 1e-3) = max 0 1e-3 := rfl
    rw [h1, max_eq_right (by norm_num : (0 : ℝ) ≤ 1e-3)]
    unfold MAX_FRAME_DT
    exact min_eq_left (by norm_num)
  apply (C10_loop_terminates (some 1e-3)).2.1
  rw [substepDurations_eq, if_pos (by rw [hR]; norm_num)]
  exact List.mem_cons_self _ _

/-! ### The concrete scenario of claim C7

Radius 0.9 µm, viscosity 1.8e-5 Pa·s, voltage 0 kV with the field disabled,
charge multiple −8, temperature 0 K (so the noise term vanishes), gap 5 mm,
start at `y = gap·0.35` with velocity 0, integrated in fixed `1/1800 s`
sub-steps. -/

/-- The parameter configuration of the scenario. -/
def s7 : SimState :=
  { running := true, voltageKV := 0, plateGapMeters := 0.005,
    radiusMicrons := 0.9, viscosity := 1.8e-5, temperatureK := 0,
    noiseBoost := 1, fieldEnabled := false, gravity := 9.81,
    pulseTimer := 0, fieldPolarity := 1 }

/-- The scenario drop after its coefficients are computed, as
`recomputeDropCoefficients` is called before the loop starts. -/
noncomputable def d7 : Drop :=
  recomputeDropCoefficients s7
    { y := 0.005 * 0.35, velocity := 0, chargeCoulombs := -8 * ELECTRON_CHARGE,
      radiusMeters := 0.9e-6, mass := 0, slipFactor := 1, dragCoeff := 0 }

/-- The scenario trajectory: `n` sub-steps of `integrateStep`. -/
noncomputable def run7 (n : ℕ) : Drop :=
  (fun d => integrateStep s7 d SUBSTEP_DT (computeElectricField s7) 0)^[n] d7

/-- The scenario drop with its position and velocity replaced. -/
noncomputable def drop7 (y v : ℝ) : Drop := { d7 with y := y, velocity := v }

/-- Position after the first sub-step. -/
noncomputable def A7 : ℝ := 0.005 * 0.35 + 9.81 * SUBSTEP_DT * SUBSTEP_DT

/-- Position visited on every even-numbered sub-step from the second on. -/
noncomputable def B7 : ℝ := A7 + -0.03 * SUBSTEP_DT

lemma drop7_y (y v : ℝ) : (drop7 y v).y = y := rfl

lemma drop7_velocity (y v : ℝ) : (drop7 y v).velocity = v := rfl

lemma drop7_mass (y v : ℝ) : (drop7 y v).mass = d7.mass := rfl

lemma drop7_dragCoeff (y v : ℝ) : (drop7 y v).dragCoeff = d7.dragCoeff := rfl

lemma drop7_charge (y v : ℝ) : (drop7 y v).chargeCoulombs = d7.chargeCoulombs := rfl

lemma E7_eq : computeElectricField s7 = 0 := by
  simp [computeElectricField, s7]

lemma d7_slip_eq : d7.slipFactor
    = 1 + (13 / 180 : ℝ)
        * (CUNNINGHAM_A + CUNNINGHAM_B * Real.exp (-CUNNINGHAM_C / (13 / 180))) := by
  show computeSlipCorrection (s7.radiusMicrons * 1e-6) = _
  rw [show s7.radiusMicrons = (0.9 : ℝ) from rfl]
  show 1 + (AIR_MEAN_FREE_PATH / max ((0.9 : ℝ) * 1e-6) 5e-9)
      * (CUNNINGHAM_A + CUNNINGHAM_B * Real.exp
          (-CUNNINGHAM_C / (AIR_MEAN_FREE_PATH / max ((0.9 : ℝ) * 1e-6) 5e-9))) = _
  rw [max_eq_left (by norm_num : (5e-9 : ℝ) ≤ 0.9 * 1e-6)]
  rw [show AIR_MEAN_FREE_PATH / ((0.9 : ℝ) * 1e-6) = 13 / 180 by
    norm_num [AIR_MEAN_FREE_PATH]]

lemma d7_slip_lower : 1 ≤ d7.slipFactor := by
  rw [d7_slip_eq]
  have hepos : 0 < Real.exp (-CUNNINGHAM_C / (13 / 180 : ℝ)) := Real.exp_pos _
  have hA : CUNNINGHAM_A = 1.257 := rfl
  have hB : CUNNINGHAM_B = 0.4 := rfl
  rw [hA, hB]
  nlinarith

lemma d7_slip_upper : d7.slipFactor ≤ 1.12 := by
  rw [d7_slip_eq]
  have hepos : 0 < Real.exp (-CUNNINGHAM_C / (13 / 180 : ℝ)) := Real.exp_pos _
  have heone : Real.exp (-CUNNINGHAM_C / (13 / 180 : ℝ)) ≤ 1 := by
    rw [Real.exp_le_one_iff]
    norm_num [CUNNINGHAM_C]
  have hA : CUNNINGHAM_A = 1.257 := rfl
  have hB : CUNNINGHAM_B = 0.4 := rfl
  rw [hA, hB]
  nlinarith

lemma d7_mass_eq : d7.mass = (4 / 3) * Real.pi * ((0.9 : ℝ) * 1e-6) ^ 3 * 858.8 := by
  show max ((4 / 3) * Real.pi * (s7.radiusMicrons * 1e-6) ^ 3
      * max (OIL_DENSITY - AIR_DENSITY) 1) 1e-20 = _
  rw [show s7.radiusMicrons = (0.9 : ℝ) from rfl]
  have hd : max (OIL_DENSITY - AIR_DENSITY) 1 = (858.8 : ℝ) := by
    rw [OIL_DENSITY, AIR_DENSITY]
    rw [show (860 : ℝ) - 1.2 = 858.8 by norm_num]
    exact max_eq_left (by norm_num)
  rw [hd]
  apply max_eq_left
  have hp : ((0.9 : ℝ) * 1e-6) ^ 3 = 7.29e-19 := by norm_num
  rw [hp]
  nlinarith [Real.pi_gt_three]

lemma d7_mass_pos : 0 < d7.mass := by
  rw [d7_mass_eq]
  positivity

lemma d7_drag_eq : d7.dragCoeff
    = 6 * Real.pi * 1.8e-5 * ((0.9 : ℝ) * 1e-6) / d7.slipFactor := rfl

lemma d7_drag_pos : 0 < d7.dragCoeff := by
  rw [d7_drag_eq]
  apply div_pos
  · positivity
  · linarith [d7_slip_lower]

lemma d7_ratio : 100000 * d7.mass ≤ d7.dragCoeff := by
  rw [d7_mass_eq, d7_drag_eq]
  rw [le_div_iff (by linarith [d7_slip_lower] : (0 : ℝ) < d7.slipFactor)]
  have hs := d7_slip_upper
  have hpi := Real.pi_pos
  have hp : ((0.9 : ℝ) * 1e-6) ^ 3 = 7.29e-19 := by norm_num
  rw [hp]
  nlinarith [mul_le_mul_of_nonneg_left hs (le_of_lt hpi)]

lemma d7_vt_nonneg : 0 ≤ d7.mass * 9.81 / d7.dragCoeff :=
  div_nonneg (by nlinarith [d7_mass_pos]) (le_of_lt d7_drag_pos)

lemma d7_vt_le : d7.mass * 9.81 / d7.dragCoeff ≤ 1e-4 := by
  rw [div_le_iff d7_drag_pos]
  linarith [d7_ratio, d7_mass_pos]

lemma effectiveDrop7 (y v : ℝ) : effectiveDrop s7 (drop7 y v) = drop7 y v := by
  unfold effectiveDrop
  exact if_neg (not_le.mpr d7_drag_pos)

lemma cap7 (y v : ℝ) : speedCap (vtAnalytic s7 (drop7 y v) 0) = 0.03 := by
  have hvt : vtAnalytic s7 (drop7 y v) 0 = d7.mass * 9.81 / d7.dragCoeff := by
    unfold vtAnalytic
    rw [effectiveDrop7]
    rw [if_pos (show (0 : ℝ) < (drop7 y v).dragCoeff from d7_drag_pos)]
    simp only [drop7_mass, drop7_charge, drop7_dragCoeff, mul_zero, add_zero]
    rfl
  rw [hvt]
  have hpos := d7_vt_nonneg
  have hle := d7_vt_le
  unfold speedCap BASE_MAX_SPEED
  rw [abs_of_nonneg hpos]
  rw [max_eq_right (by linarith : 2 * (d7.mass * 9.81 / d7.dragCoeff) ≤ 0.02)]
  rw [max_eq_right (by norm_num : (0.02 : ℝ) ≤ 0.12 * 0.25)]
  norm_num

lemma core7_eq (y v : ℝ) :
    integrateCore s7 (drop7 y v) SUBSTEP_DT 0 0
      = drop7
          (y + clamp (v + (d7.mass * 9.81 + -d7.dragCoeff * v) / d7.mass * SUBSTEP_DT)
              (-0.03) 0.03 * SUBSTEP_DT)
          (clamp (v + (d7.mass * 9.81 + -d7.dragCoeff * v) / d7.mass * SUBSTEP_DT)
              (-0.03) 0.03) := by
  have hnf : noiseForce s7 d7.dragCoeff SUBSTEP_DT 0 = 0 := by
    unfold noiseForce
    ring
  have hg : s7.gravity = (9.81 : ℝ) := rfl
  simp only [integrateCore, effectiveDrop7, cap7, drop7_y, drop7_velocity,
    drop7_mass, drop7_dragCoeff, drop7_charge, hnf, hg, mul_zero, add_zero]
  rfl

lemma bounce7_id (Y W : ℝ) (h0 : ¬ Y < 0) (h1 : ¬ (0.005 : ℝ) < Y) :
    applyBounce 0.005 (drop7 Y W) = drop7 Y W := by
  unfold applyBounce bounceLow bounceHigh
  rw [if_neg (show ¬ (drop7 Y W).y < 0 from h0)]
  rw [if_neg (show ¬ (0.005 : ℝ) < (drop7 Y W).y from h1)]

lemma step7_total (y v Y W : ℝ)
    (hclamp : clamp (v + (d7.mass * 9.81 + -d7.dragCoeff * v) / d7.mass * SUBSTEP_DT)
        (-0.03) 0.03 = W)
    (hY : y + W * SUBSTEP_DT = Y)
    (h0 : ¬ Y < 0) (h1 : ¬ (0.005 : ℝ) < Y) :
    integrateStep s7 (drop7 y v) SUBSTEP_DT 0 0 = drop7 Y W := by
  unfold integrateStep
  rw [show s7.plateGapMeters = (0.005 : ℝ) from rfl]
  rw [core7_eq, hclamp, hY]
  exact bounce7_id Y W h0 h1

lemma clamp7_from_zero :
    clamp (0 + (d7.mass * 9.81 + -d7.dragCoeff * 0) / d7.mass * SUBSTEP_DT)
      (-0.03) 0.03 = 9.81 * SUBSTEP_DT := by
  have hm := d7_mass_pos
  have harg : (0 : ℝ) + (d7.mass * 9.81 + -d7.dragCoeff * 0) / d7.mass * SUBSTEP_DT
      = 9.81 * SUBSTEP_DT := by
    rw [mul_zero, add_zero, zero_add, mul_comm d7.mass 9.81, mul_div_assoc,
      div_self (ne_of_gt hm), mul_one]
  rw [harg]
  unfold clamp SUBSTEP_DT
  rw [max_eq_left (by norm_num), min_eq_left (by norm_num)]

lemma clamp7_flip_down (v : ℝ) (hv : 9.81 * SUBSTEP_DT ≤ v) (hv2 : v ≤ 0.03) :
    clamp (v + (d7.mass * 9.81 + -d7.dragCoeff * v) / d7.mass * SUBSTEP_DT)
      (-0.03) 0.03 = -0.03 := by
  have hm := d7_mass_pos
  have hv0 : 0 ≤ v := le_trans (by norm_num [SUBSTEP_DT]) hv
  have hdiv : (d7.mass * 9.81 + -d7.dragCoeff * v) / d7.mass ≤ 9.81 - 100000 * v := by
    rw [div_le_iff hm]
    nlinarith [mul_le_mul_of_nonneg_right d7_ratio hv0]
  have hmul : (d7.mass * 9.81 + -d7.dragCoeff * v) / d7.mass * SUBSTEP_DT
      ≤ (9.81 - 100000 * v) * SUBSTEP_DT :=
    mul_le_mul_of_nonneg_right hdiv (by norm_num [SUBSTEP_DT])
  have harg : v + (d7.mass * 9.81 + -d7.dragCoeff * v) / d7.mass * SUBSTEP_DT
      ≤ -0.03 := by
    have hlin : v + (9.81 - 100000 * v) * SUBSTEP_DT ≤ -0.03 := by
      rw [SUBSTEP_DT] at hv ⊢
      nlinarith
    linarith
  unfold clamp
  rw [max_eq_right harg, min_eq_left (by norm_num : (-0.03 : ℝ) ≤ 0.03)]

lemma clamp7_flip_up :
    clamp ((-0.03) + (d7.mass * 9.81 + -d7.dragCoeff * (-0.03)) / d7.mass * SUBSTEP_DT)
      (-0.03) 0.03 = 0.03 := by
  have hm := d7_mass_pos
  have hdiv : (9.81 : ℝ) + 100000 * 0.03
      ≤ (d7.mass * 9.81 + -d7.dragCoeff * (-0.03)) / d7.mass := by
    rw [le_div_iff hm]
    nlinarith [d7_ratio]
  have harg : (0.03 : ℝ)
      ≤ -0.03 + (d7.mass * 9.81 + -d7.dragCoeff * (-0.03)) / d7.mass * SUBSTEP_DT := by
    have hmul : ((9.81 : ℝ) + 100000 * 0.03) * SUBSTEP_DT
        ≤ (d7.mass * 9.81 + -d7.dragCoeff * (-0.03)) / d7.mass * SUBSTEP_DT :=
      mul_le_mul_of_nonneg_right hdiv (by norm_num [SUBSTEP_DT])
    have : ((9.81 : ℝ) + 100000 * 0.03) * SUBSTEP_DT = 3009.81 / 1800 := by
      rw [SUBSTEP_DT]
      ring
    nlinarith [hmul]
  unfold clamp
  rw [max_eq_left (by linarith : (-0.03 : ℝ) ≤ _), min_eq_right harg]

lemma step7_AB : integrateStep s7 (drop7 A7 0.03) SUBSTEP_DT 0 0 = drop7 B7 (-0.03) := by
  apply step7_total
  · exact clamp7_flip_down 0.03 (by norm_num [SUBSTEP_DT]) (le_refl _)
  · rw [B7]
  · unfold B7 A7 SUBSTEP_DT
    norm_num
  · unfold B7 A7 SUBSTEP_DT
    norm_num

lemma step7_BA : integrateStep s7 (drop7 B7 (-0.03)) SUBSTEP_DT 0 0 = drop7 A7 0.03 := by
  apply step7_total
  · exact clamp7_flip_up
  · unfold B7
    ring
  · unfold A7 SUBSTEP_DT
    norm_num
  · unfold A7 SUBSTEP_DT
    norm_num

lemma run7_zero : run7 0 = drop7 (0.005 * 0.35) 0 := by
  unfold run7
  rw [Function.iterate_zero]
  show d7 = drop7 (0.005 * 0.35) 0
  ext <;> rfl

lemma run7_succ (n : ℕ) :
    run7 (n + 1) = integrateStep s7 (run7 n) SUBSTEP_DT (computeElectricField s7) 0 := by
  unfold run7
  exact Function.iterate_succ_apply' _ _ _

lemma run7_one : run7 1 = drop7 A7 (9.81 * SUBSTEP_DT) := by
  rw [show (1 : ℕ) = 0 + 1 from rfl, run7_succ 0, E7_eq, run7_zero]
  apply step7_total
  · exact clamp7_from_zero
  · rw [A7]
  · unfold A7 SUBSTEP_DT
    norm_num
  · unfold A7 SUBSTEP_DT
    norm_num

lemma run7_two : run7 2 = drop7 B7 (-0.03) := by
  rw [show (2 : ℕ) = 1 + 1 from rfl, run7_succ 1, E7_eq, run7_one]
  apply step7_total
  · exact clamp7_flip_down (9.81 * SUBSTEP_DT) (le_refl _) (by norm_num [SUBSTEP_DT])
  · rw [B7]
  · unfold B7 A7 SUBSTEP_DT
    norm_num
  · unfold B7 A7 SUBSTEP_DT
    norm_num

lemma run7_three : run7 3 = drop7 A7 0.03 := by
  rw [show (3 : ℕ) = 2 + 1 from rfl, run7_succ 2, E7_eq, run7_two]
  exact step7_BA

lemma run7_pattern (j : ℕ) :
    run7 (2 + 2 * j) = drop7 B7 (-0.03) ∧ run7 (3 + 2 * j) = drop7 A7 0.03 := by
  induction j with
  | zero =>
    constructor
    · simpa using run7_two
    · simpa using run7_three
  | succ j ih =>
    have e1 : 2 + 2 * (j + 1) = (3 + 2 * j) + 1 := by ring
    have hA : run7 (2 + 2 * (j + 1)) = drop7 B7 (-0.03) := by
      rw [e1, run7_succ, E7_eq, ih.2]
      exact step7_AB
    refine ⟨hA, ?_⟩
    have e2 : 3 + 2 * (j + 1) = (2 + 2 * (j + 1)) + 1 := by ring
    rw [e2, run7_succ, E7_eq, hA]
    exact step7_BA

/-- Claim C7 evaluated on the code: after 3.0 s (5400 fixed sub-steps of
`1/1800 s`) the scenario drop's velocity is `−0.03 m/s` — the dynamic speed
cap, about 300 times the analytic terminal velocity and of the opposite sign —
and its position is `1.75 mm + 9.81·dt² − 0.03·dt ≈ 1.7364 mm`, not 0.  The
sub-step is far above the stability limit of the explicit Euler scheme
(`dt·dragCoeff/mass ≈ 59`), so the velocity oscillates between `±0.03 m/s`
instead of settling at the terminal velocity, contradicting the claim. -/
theorem C7_scenario_on_code :
    (run7 5400).velocity = -0.03
  ∧ (run7 5400).y = 0.005 * 0.35 + 9.81 * SUBSTEP_DT * SUBSTEP_DT - 0.03 * SUBSTEP_DT
  ∧ (run7 5400).y ≠ 0
  ∧ 0.01 * (d7.mass * s7.gravity / d7.dragCoeff)
      < |(run7 5400).velocity - d7.mass * s7.gravity / d7.dragCoeff| := by
  have h54 : run7 5400 = drop7 B7 (-0.03) := by
    rw [show (5400 : ℕ) = 2 + 2 * 2699 by norm_num]
    exact (run7_pattern 2699).1
  have hg : s7.gravity = (9.81 : ℝ) := rfl
  refine ⟨by rw [h54]; rfl, ?_, ?_, ?_⟩
  · rw [h54]
    show B7 = _
    unfold B7 A7
    ring
  · rw [h54]
    show B7 ≠ 0
    unfold B7 A7 SUBSTEP_DT
    norm_num
  · rw [h54, hg]
    have hpos := d7_vt_nonneg
    have hle := d7_vt_le
    have habs : |(drop7 B7 (-0.03)).velocity - d7.mass * 9.81 / d7.dragCoeff|
        = 0.03 + d7.mass * 9.81 / d7.dragCoeff := by
      rw [drop7_velocity]
      rw [abs_of_neg (by linarith : (-0.03 : ℝ) - d7.mass * 9.81 / d7.dragCoeff < 0)]
      ring
    rw [habs]
    linarith

end OilDrop
